import Mathlib

set_option linter.unusedVariables false

/-!
Verification of the MathAgent backend (src/backend) against its specification.

The development shallowly embeds the Python sources:

* `src/backend/agents.py` — the `MathGuardrails` input validator and output
  formatter are translated in full (keyword lists, the nine compiled regular
  expressions, the ordered substitution table).  The LLM-backed agents are
  external collaborators; each stage call site receives an abstract
  `AgentOutcome` describing what the remote agent machinery would have done.
* `src/backend/kb_tool.py` — `retrieve_data_from_db`, with the remote
  embedding service and the Pinecone index abstracted into a `KBWorld`.
* `src/backend/main.py` — the session store, the `/chat` endpoint, the
  background pipeline `process_math_question`, and the `/human-input`
  endpoint, plus a small-step reachability relation `Reach` on a session
  paired with its in-flight `await` continuations.  Continuations resume
  unconditionally, as in the source; a Boolean index distinguishes the
  full interleaved semantics from runs whose API operations do not
  overlap.

Strings are modelled as Lean `String`/`List Char`; Python `str.lower` and
`str.strip` are modelled on the ASCII fragment (`lowerChar`, `isWS`), which
covers every keyword, indicator and message literal appearing in the source.
Python regular-expression `\w`/word boundaries are likewise modelled with
ASCII word characters.
-/

/-- U+0027, kept out of string literals so the message text can be assembled
by concatenation. -/
def apos : String := String.singleton (Char.ofNat 39)

/-- The whitespace class stripped by Python `str.strip()` and matched by
regex `\s` (ASCII fragment). -/
def isWS (c : Char) : Bool :=
  c == ' ' || c == '\t' || c == '\n' || c == '\r' || c == '\x0b' || c == '\x0c'

/-- Python `str.lower` on the ASCII fragment. -/
def lowerChar (c : Char) : Char :=
  if 'A' ≤ c && c ≤ 'Z' then Char.ofNat (c.toNat + 32) else c

/-- Python `str.strip()`: drop whitespace from both ends. -/
def trim (l : List Char) : List Char :=
  ((l.dropWhile isWS).reverse.dropWhile isWS).reverse

/-- `topic.lower().strip()` from `validate_math_input`. -/
def lowerStrip (l : List Char) : List Char := trim (l.map lowerChar)

/-- Bool version of list-prefix, used to decide Python substring containment. -/
def isPrefixB : List Char → List Char → Bool
  | [], _ => true
  | _ :: _, [] => false
  | a :: as, b :: bs => a == b && isPrefixB as bs

/-- Python `needle in haystack` on strings: substring containment. -/
def substrB (n : List Char) : List Char → Bool
  | [] => isPrefixB n []
  | c :: t => isPrefixB n (c :: t) || substrB n t

/-- `any(w in l for w in ws)` — the containment test used for keyword,
indicator, edge-case and approval word lists. -/
def containsAnyWord (ws : List String) (l : List Char) : Bool :=
  ws.any (fun w => substrB w.data l)

/-- Regex `\w` (ASCII fragment): word character for `\b` boundaries. -/
def isWordChar (c : Char) : Bool := c.isAlphanum || c == '_'

namespace MathGuardrails

/-- `MathGuardrails.MATH_KEYWORDS` from agents.py. -/
def MATH_KEYWORDS : List String :=
  ["solve", "equation", "derivative", "integral", "function", "graph", "plot",
   "algebra", "calculus", "geometry", "trigonometry", "statistics", "probability",
   "matrix", "vector", "limit", "series", "theorem", "proof", "formula",
   "calculate", "compute", "simplify", "factor", "expand", "evaluate",
   "polynomial", "exponential", "logarithm", "sine", "cosine", "tangent",
   "differential", "optimization", "minimum", "maximum", "area", "volume",
   "perimeter", "distance", "slope", "intercept", "quadratic", "linear",
   "parabola", "circle", "triangle", "rectangle", "sphere", "cylinder",
   "binomial", "factorial", "permutation", "combination", "variance", "deviation"]

/-- `MathGuardrails.NON_MATH_INDICATORS` from agents.py. -/
def NON_MATH_INDICATORS : List String :=
  ["write a story", "tell me a joke", "weather", "news", "recipe",
   "movie", "book recommendation", "health advice", "relationship",
   "what is your opinion", "how do you feel", "personal experience"]

/-- `MathGuardrails.EDGE_CASE_WORDS` from agents.py. -/
def EDGE_CASE_WORDS : List String := ["find", "what is", "how much", "calculate"]

/-- Pattern `[+\-*/=<>≤≥≠±∞]`: the input contains a math operator. -/
def hasMathOperator (l : List Char) : Bool :=
  l.any (fun c => "+-*/=<>≤≥≠±∞".data.contains c)

/-- Pattern `[xy]\^?\d*`: since the `\^?` and `\d*` parts are optional,
`re.search` succeeds exactly when the input contains an `x` or a `y`. -/
def hasXY (l : List Char) : Bool :=
  l.any (fun c => c == 'x' || c == 'y')

/-- Pattern `\d+[xy]`: a digit immediately followed by `x` or `y`. -/
def hasDigitVar : List Char → Bool
  | a :: b :: rest => (a.isDigit && (b == 'x' || b == 'y')) || hasDigitVar (b :: rest)
  | _ => false

/-- Pattern `sin|cos|tan|log|ln|sqrt` (the input is already lowercased). -/
def hasTrigLog (l : List Char) : Bool :=
  containsAnyWord ["sin", "cos", "tan", "log", "ln", "sqrt"] l

/-- Pattern `∫|∑|∏|∂|∆|π|θ|α|β|γ|λ|μ|σ`. -/
def hasGreekSymbol (l : List Char) : Bool :=
  l.any (fun c => "∫∑∏∂∆πθαβγλμσ".data.contains c)

/-- Matcher for `\b\d+<sep>\d+\b` at the head of `l` (used with `sep` `.`
for pattern `\b\d+\.\d+\b` and `/` for `\b\d+/\d+\b`).  The greedy `\d+`
must run to the end of the digit run, the separator must follow, and the
closing `\b` forces the second run to end at a non-word character or at the
end of the input. -/
def sepNumAt (sep : Char) (l : List Char) : Bool :=
  let ds := l.takeWhile Char.isDigit
  let rest := l.dropWhile Char.isDigit
  !ds.isEmpty &&
    (match rest with
     | s :: r2 =>
       s == sep &&
         (let ds2 := r2.takeWhile Char.isDigit
          let r3 := r2.dropWhile Char.isDigit
          !ds2.isEmpty && (match r3 with | [] => true | c :: _ => !isWordChar c))
     | [] => false)

/-- `re.search` scan for `\b\d+<sep>\d+\b`; `prevWord` records whether the
character before the current position is a word character (for the opening
`\b`). -/
def sepNumSearch (sep : Char) : Bool → List Char → Bool
  | _, [] => false
  | prevWord, c :: t =>
    (!prevWord && sepNumAt sep (c :: t)) || sepNumSearch sep (isWordChar c) t

/-- Matcher for `\([^)]*[xy][^)]*\)` at the head of `l`: an opening paren
whose first closing paren exists, with an `x` or `y` strictly between. -/
def parenVarAt : List Char → Bool
  | '(' :: rest =>
    (match rest.dropWhile (fun c => c != ')') with
     | ')' :: _ => (rest.takeWhile (fun c => c != ')')).any (fun c => c == 'x' || c == 'y')
     | _ => false)
  | _ => false

/-- `re.search` scan for `\([^)]*[xy][^)]*\)`. -/
def hasParenVar : List Char → Bool
  | [] => false
  | c :: t => parenVarAt (c :: t) || hasParenVar t

/-- Matcher for `[a-z]\s*²|[a-z]\s*³` at the head of `l`. -/
def supAt : List Char → Bool
  | c :: rest =>
    ('a' ≤ c && c ≤ 'z') &&
      (match rest.dropWhile isWS with
       | s :: _ => s == '²' || s == '³'
       | [] => false)
  | [] => false

/-- `re.search` scan for `[a-z]\s*²|[a-z]\s*³`. -/
def hasSupDigit : List Char → Bool
  | [] => false
  | c :: t => supAt (c :: t) || hasSupDigit t

/-- `any(pattern.search(topic_lower) for pattern in MATH_PATTERNS)`:
disjunction of the nine compiled patterns of `MATH_PATTERNS`, in order. -/
def hasMathPattern (l : List Char) : Bool :=
  hasMathOperator l || hasXY l || hasDigitVar l || hasTrigLog l ||
    hasGreekSymbol l || sepNumSearch '.' false l || sepNumSearch '/' false l ||
    hasParenVar l || hasSupDigit l

/-- Rejection message for empty input. -/
def MSG_EMPTY : String := "Please provide a mathematical question or problem."

/-- Rejection message for non-math content. -/
def MSG_NON_MATH : String :=
  "I" ++ apos ++ "m designed specifically for mathematical problems. Please ask a maths related question."

/-- Acceptance message. -/
def MSG_VALID : String := "Valid mathematical input"

/-- Conditional-acceptance message for the edge-case word list. -/
def MSG_EDGE : String := "Potentially maths problem, so proceed with caution"

/-- Final rejection message. -/
def MSG_NOT_MATH : String :=
  "This doesn" ++ apos ++
    "t appear to be a mathematical question. I specialize in solving math problems. Please ask about equations, calculations, or mathematical concepts."

/-- `MathGuardrails.validate_math_input` from agents.py, line for line:
empty check, non-math quick reject, keyword/pattern acceptance, edge-case
acceptance, generic rejection. -/
def validate_math_input (topic : String) : Bool × String :=
  if topic.data.isEmpty || (trim topic.data).isEmpty then (false, MSG_EMPTY)
  else
    let topic_lower := lowerStrip topic.data
    if containsAnyWord NON_MATH_INDICATORS topic_lower then (false, MSG_NON_MATH)
    else
      let has_math_keywords := containsAnyWord MATH_KEYWORDS topic_lower
      let has_math_patterns := hasMathPattern topic_lower
      if has_math_keywords || has_math_patterns then (true, MSG_VALID)
      else if containsAnyWord EDGE_CASE_WORDS topic_lower then (true, MSG_EDGE)
      else (false, MSG_NOT_MATH)

/-- Match `(\d+)/(\d+)` at the head of `l`: returns the two digit groups and
the remainder.  The greedy `\d+` must consume the whole digit run for the
literal `/` to match. -/
def fracMatch (l : List Char) : Option (List Char × List Char × List Char) :=
  let d1 := l.takeWhile Char.isDigit
  let r1 := l.dropWhile Char.isDigit
  if d1.isEmpty then none
  else
    match r1 with
    | '/' :: r2 =>
      let d2 := r2.takeWhile Char.isDigit
      let r3 := r2.dropWhile Char.isDigit
      if d2.isEmpty then none else some (d1, d2, r3)
    | _ => none

/-- `re.sub` scan for `(\d+)/(\d+)` → `\frac{\1}{\2}`.  Every iteration
consumes at least one character, so `fuel = length` suffices. -/
def fracSubAux : Nat → List Char → List Char
  | 0, l => l
  | _ + 1, [] => []
  | fuel + 1, c :: t =>
    match fracMatch (c :: t) with
    | some (d1, d2, rest) =>
      "\\frac\x7b".data ++ d1 ++ "\x7d\x7b".data ++ d2 ++ "\x7d".data ++ fracSubAux fuel rest
    | none => c :: fracSubAux fuel t

/-- Substitution rule `(\d+)/(\d+)` → `\frac{\1}{\2}`. -/
def fracSub (l : List Char) : List Char := fracSubAux l.length l

/-- `re.sub` scan for `\^(<class>+)` → `^{\1}`, where `<class>` is `\d` for
the second REPLACEMENTS rule and `[a-zA-Z]` for the third. -/
def caretSubAux (good : Char → Bool) : Nat → List Char → List Char
  | 0, l => l
  | _ + 1, [] => []
  | fuel + 1, c :: t =>
    if c == '^' && !(t.takeWhile good).isEmpty then
      '^' :: '\x7b' :: t.takeWhile good ++ '\x7d' :: caretSubAux good fuel (t.dropWhile good)
    else c :: caretSubAux good fuel t

/-- Substitution rules `\^(\d+)` → `^{\1}` and `\^([a-zA-Z]+)` → `^{\1}`. -/
def caretSub (good : Char → Bool) (l : List Char) : List Char := caretSubAux good l.length l

/-- Regex `[a-zA-Z]` for the third REPLACEMENTS rule. -/
def isAsciiLetter (c : Char) : Bool := ('a' ≤ c && c ≤ 'z') || ('A' ≤ c && c ≤ 'Z')

/-- Match `<head>([^)]+)\)` after the literal head (`sqrt(` or `√(`): the
greedy `[^)]+` runs to the first closing paren, which must exist and must
not come immediately after the opening paren. -/
def sqrtMatch (head : List Char) (l : List Char) : Option (List Char × List Char) :=
  match isPrefixB head l with
  | false => none
  | true =>
    let rest := l.drop head.length
    let inside := rest.takeWhile (fun c => c != ')')
    match rest.dropWhile (fun c => c != ')') with
    | ')' :: after => if inside.isEmpty then none else some (inside, after)
    | _ => none

/-- `re.sub` scan for `sqrt\(([^)]+)\)` / `√\(([^)]+)\)` → `\sqrt{\1}`. -/
def sqrtSubAux (head : List Char) : Nat → List Char → List Char
  | 0, l => l
  | _ + 1, [] => []
  | fuel + 1, c :: t =>
    match sqrtMatch head (c :: t) with
    | some (inside, rest) => "\\sqrt\x7b".data ++ inside ++ '\x7d' :: sqrtSubAux head fuel rest
    | none => c :: sqrtSubAux head fuel t

/-- Substitution rules 4 and 5 of REPLACEMENTS. -/
def sqrtSub (head : List Char) (l : List Char) : List Char := sqrtSubAux head l.length l

/-- Case-insensitive literal-prefix match; returns the remainder on
success.  The pattern chars are supplied lowercase. -/
def ciPrefix : List Char → List Char → Option (List Char)
  | [], l => some l
  | _ :: _, [] => none
  | w :: ws, c :: cs => if lowerChar c == w then ciPrefix ws cs else none

/-- `re.sub` scan for `\b<word>\b` (IGNORECASE) → `repl`.  `prevWord`
records whether the previous character of the original text is a word
character; after a replaced occurrence it is true since every word used in
REPLACEMENTS ends in a letter. -/
def wordSubAux (word repl : List Char) : Nat → Bool → List Char → List Char
  | 0, _, l => l
  | _ + 1, _, [] => []
  | fuel + 1, prevWord, c :: t =>
    match (if prevWord then none else ciPrefix word (c :: t)) with
    | some rest =>
      (match rest with
       | [] => repl
       | r :: _ =>
         if isWordChar r then c :: wordSubAux word repl fuel (isWordChar c) t
         else repl ++ wordSubAux word repl fuel true rest)
    | none => c :: wordSubAux word repl fuel (isWordChar c) t

/-- Whole-word, case-insensitive substitution (REPLACEMENTS rules 6-11 and
13). -/
def wordSub (word repl : List Char) (l : List Char) : List Char :=
  wordSubAux word repl l.length false l

/-- `re.sub` scan for the literal pattern `d/dx` → `\frac{d}{dx}`. -/
def literalSubAux (pat repl : List Char) : Nat → List Char → List Char
  | 0, l => l
  | _ + 1, [] => []
  | fuel + 1, c :: t =>
    if isPrefixB pat (c :: t) then repl ++ literalSubAux pat repl fuel ((c :: t).drop pat.length)
    else c :: literalSubAux pat repl fuel t

/-- Substitution rule 12 of REPLACEMENTS (`d/dx` → `\frac{d}{dx}`). -/
def literalSub (pat repl : List Char) (l : List Char) : List Char :=
  literalSubAux pat repl l.length l

/-- `MathGuardrails.format_math_output` from agents.py: if the text is
falsy return it unchanged, else apply the thirteen REPLACEMENTS rules in
order. -/
def format_math_output (text : String) : String :=
  if text.data.isEmpty then text
  else
    let s1 := fracSub text.data
    let s2 := caretSub Char.isDigit s1
    let s3 := caretSub isAsciiLetter s2
    let s4 := sqrtSub "sqrt(".data s3
    let s5 := sqrtSub "√(".data s4
    let s6 := wordSub "pi".data "π".data s5
    let s7 := wordSub "infinity".data "∞".data s6
    let s8 := wordSub "theta".data "θ".data s7
    let s9 := wordSub "alpha".data "α".data s8
    let s10 := wordSub "beta".data "β".data s9
    let s11 := wordSub "gamma".data "γ".data s10
    let s12 := literalSub "d/dx".data "\\frac\x7bd\x7d\x7bdx\x7d".data s11
    let s13 := wordSub "integral".data "∫".data s12
    String.mk s13

end MathGuardrails

section EmbeddingChecks

example : MathGuardrails.validate_math_input "solve x^2 = 4" = (true, MathGuardrails.MSG_VALID) := by decide

example : (MathGuardrails.validate_math_input "tell me a joke about x^2").1 = false := by decide

example : MathGuardrails.validate_math_input "" = (false, MathGuardrails.MSG_EMPTY) := by decide

example : MathGuardrails.validate_math_input "   " = (false, MathGuardrails.MSG_EMPTY) := by decide

example : (MathGuardrails.validate_math_input "what is the capital").2 = MathGuardrails.MSG_EDGE := by decide

example : (MathGuardrails.validate_math_input "hello there").1 = false := by decide

example : MathGuardrails.hasMathPattern "3.14".data = true := by decide

example : MathGuardrails.hasMathPattern "a3.14".data = false := by decide

example : MathGuardrails.hasMathPattern "(a b)".data = false := by decide

example : MathGuardrails.hasMathPattern "(a y b)".data = true := by decide

example : MathGuardrails.format_math_output "3/4 + x^2" = "\\frac\x7b3\x7d\x7b4\x7d + x^\x7b2\x7d" := by decide

example : MathGuardrails.format_math_output "sqrt(16)" = "\\sqrt\x7b16\x7d" := by decide

example : MathGuardrails.format_math_output "PI r^2" = "π r^\x7b2\x7d" := by decide

example : MathGuardrails.format_math_output "d/dx integral of x" = "\\frac\x7bd\x7d\x7bdx\x7d ∫ of x" := by decide

example : MathGuardrails.format_math_output "spine pit pi" = "spine pit π" := by decide

example : MathGuardrails.format_math_output "22/7 as pi" = "\\frac\x7b22\x7d\x7b7\x7d as π" := by decide

example : MathGuardrails.format_math_output "x^abc" = "x^\x7babc\x7d" := by decide

example : MathGuardrails.format_math_output "√(a+b)" = "\\sqrt\x7ba+b\x7d" := by decide

example : MathGuardrails.format_math_output "3.5x pi,2" = "3.5x π,2" := by decide

example : MathGuardrails.format_math_output "" = "" := by decide

example : MathGuardrails.hasMathPattern "hello".data = false := by decide

end EmbeddingChecks

/-! ## kb_tool.py -/

/-- A Pinecone match record: only its `metadata` dictionary is read by the
code (string keys to string values). -/
structure PineconeMatch where
  metadata : List (String × String)

/-- The external collaborators of `retrieve_data_from_db`, abstracted over
the embedding-vector type `α`.  `embed` is the Hugging Face feature
extraction call of `get_embeddings` (`raise_for_status` turns HTTP failures
into exceptions, hence `Except`).  `query` is the Pinecone client: for a
vector and a namespace it yields the full relevance-ordered match list of
the index, or fails (missing credentials in `get_pinecone_index`, network
errors in `index.query`). -/
structure KBWorld (α : Type) where
  embed : String → Except String α
  query : α → String → Except String (List PineconeMatch)

/-- Modelled from the spec: the external vector index service returns the
top-k nearest neighbours — `index.query(top_k=...)` truncates the
relevance-ordered match list to at most `topK` entries. -/
def index_query {α : Type} (w : KBWorld α) (vec : α) (ns : String) (topK : Nat) :
    Except String (List PineconeMatch) :=
  (w.query vec ns).map (fun ms => ms.take topK)

/-- Python `res["metadata"]["text"]`: dictionary lookup; a missing key
raises `KeyError`, modelled by `none`. -/
def lookupMeta (meta : List (String × String)) (key : String) : Option String :=
  match meta with
  | [] => none
  | (k, v) :: rest => if k == key then some v else lookupMeta rest key

/-- The comprehension `[res["metadata"]["text"] for res in matches]`: all
texts, or `none` if any lookup raises. -/
def extractTexts : List PineconeMatch → Option (List String)
  | [] => some []
  | m :: rest =>
    match lookupMeta m.metadata "text", extractTexts rest with
    | some t, some ts => some (t :: ts)
    | _, _ => none

/-- `retrieve_data_from_db` from kb_tool.py: embed the query, query the
`engg-math-1` namespace with `top_k=3`, extract the text snippets; the
surrounding `try`/`except` converts every failure into `[]`. -/
def retrieve_data_from_db {α : Type} (w : KBWorld α) (query : String) : List String :=
  match w.embed query with
  | .error _ => []
  | .ok vec =>
    match index_query w vec "engg-math-1" 3 with
    | .error _ => []
    | .ok ms =>
      match extractTexts ms with
      | none => []
      | some texts => texts

/-! ## agents.py — the three pipeline stages

The `FunctionAgent`/LLM machinery is an external collaborator.  Each stage
call receives an `AgentOutcome` summarising what that machinery would have
done: `text s` — some tier (agent or direct-completion fallback) returned
the string `s`; `fail e` — every tier raised, so the stage's final
`except` clause produces its hard-coded fallback value from the exception
text `e`; `raised e` — an exception escaped the stage (Python permits
this at any `await`, e.g. task cancellation), to be caught by the caller
in main.py. -/

inductive AgentOutcome where
  | text (s : String)
  | fail (e : String)
  | raised (e : String)

/-- Fallback string of `research_topic`'s final `except` clause. -/
def MSG_RESEARCH_FALLBACK : String :=
  "I" ++ apos ++ "ll solve this mathematical problem using fundamental principles."

/-- `MathematicalAgent.research_topic`: validate the topic first and return
the rejection message without touching the agent machinery; otherwise the
agent/fallback tiers run (no output formatting).  The second component
records whether the agent machinery was engaged. -/
def research_topic (topic : String) (o : AgentOutcome) : Except String String × Bool :=
  let v := MathGuardrails.validate_math_input topic
  if !v.1 then (.ok v.2, false)
  else
    match o with
    | .text s => (.ok s, true)
    | .fail _ => (.ok MSG_RESEARCH_FALLBACK, true)
    | .raised e => (.error e, true)

/-- `MathematicalAgent.solve_problem`: validate the topic first and return
the rejection message without touching the agent machinery; otherwise the
agent/fallback tiers run and their output goes through
`format_math_output` (the final `except` clause's error string does not). -/
def solve_problem (topic research_context : String) (o : AgentOutcome) :
    Except String String × Bool :=
  let v := MathGuardrails.validate_math_input topic
  if !v.1 then (.ok v.2, false)
  else
    match o with
    | .text s => (.ok (MathGuardrails.format_math_output s), true)
    | .fail e => (.ok ("I encountered an error solving this problem: " ++ e), true)
    | .raised e => (.error e, true)

/-- `MathematicalAgent.improve_solution`: no validation of any argument —
the agent machinery always runs; tier output goes through
`format_math_output`. -/
def improve_solution (original_solution feedback topic : String) (o : AgentOutcome) :
    Except String String × Bool :=
  match o with
  | .text s => (.ok (MathGuardrails.format_math_output s), true)
  | .fail e => (.ok ("I encountered an error improving the solution: " ++ e), true)
  | .raised e => (.error e, true)

/-! ## main.py — sessions, endpoints, pipeline -/

/-- An entry of a session's `messages` list: `{"role": ..., "content": ...}`. -/
structure ChatMessage where
  role : String
  content : String

/-- A session record as stored in the `sessions` dict (the `agent` object
carries no session-visible state of its own and is elided). -/
structure Session where
  status : String
  messages : List ChatMessage
  waiting_for_approval : Bool
  current_solution : Option String
  current_topic : String
  research_context : Option String

/-- The fresh session dict built by the `/chat` endpoint. -/
def initSession (topic : String) : Session :=
  { status := "processing"
    messages := [⟨"user", topic⟩]
    waiting_for_approval := false
    current_solution := none
    current_topic := topic
    research_context := none }

/-- The in-memory `sessions: Dict[str, Any]` store. -/
abbrev SessionStore := List (String × Session)

/-- `sessions.get(session_id)` / `session_id in sessions`. -/
def findSession : SessionStore → String → Option Session
  | [], _ => none
  | (k, s) :: rest, sid => if k == sid then some s else findSession rest sid

/-- In-place mutation of one session's fields. -/
def updateSession : SessionStore → String → (Session → Session) → SessionStore
  | [], _, _ => []
  | (k, s) :: rest, sid, f =>
    if k == sid then (k, f s) :: rest else (k, s) :: updateSession rest sid f

/-- The JSON body returned by `POST /chat`. -/
structure ChatResponse where
  session_id : String
  status : String
  messages : List ChatMessage

/-- The new-session branch of the `/chat` endpoint: generate a fresh id,
store a fresh session, reply `processing`. -/
def chatNew (store : SessionStore) (topic freshId : String) : SessionStore × ChatResponse :=
  let sess := initSession topic
  (store ++ [(freshId, sess)],
   { session_id := freshId, status := "processing", messages := sess.messages })

/-- The synchronous part of the `/chat` endpoint (the background pipeline
task it spawns is `process_math_question` below).  `freshId` stands for
`uuid.uuid4().hex`.  The guard is Python's
`if req.session_id and req.session_id in sessions` — an absent or empty or
unknown id all fall through to session creation. -/
def chat (store : SessionStore) (topic : String) (session_id : Option String)
    (freshId : String) : SessionStore × ChatResponse :=
  match session_id with
  | some sid =>
    match findSession store sid with
    | some sess =>
      if sid != "" then
        let sess' : Session := { sess with messages := sess.messages ++ [⟨"user", topic⟩] }
        (updateSession store sid (fun _ => sess'),
         { session_id := sid, status := "processing", messages := sess'.messages })
      else chatNew store topic freshId
    | none => chatNew store topic freshId
  | none => chatNew store topic freshId

/-- The review prompt appended by `process_math_question` when a solution
is ready (`approval_message`, with its f-string indentation verbatim). -/
def approvalMessage (solution : String) : String :=
  " Yay! Solution Complete!\n        Here" ++ apos ++
    "s my step by step solution:\n\n        " ++ solution ++
    "\n\n        ---\n        Please Review:\n        - Type \"approve\" if the solution is correct\n        - Or provide specific feedback for improvements."

/-- The diagnostic message of `process_math_question`'s `except` clause. -/
def errorMessage (e : String) : String := "I encountered an error: " ++ e

/-- `process_math_question` from main.py, as a function from the session
value at task start to the session value when the task ends: research,
then solve, then present the solution and await feedback; any exception
escaping a stage is caught and recorded as status `error` plus a
diagnostic message.  (`researchO`/`solveO` abstract the two remote-agent
calls; the intermediate `researching`/`solving` states are captured by
`Reachable` below.) -/
def process_math_question (sess : Session) (topic : String)
    (researchO solveO : AgentOutcome) : Session :=
  match research_topic topic researchO with
  | (.error e, _) =>
    { sess with status := "error", messages := sess.messages ++ [⟨"assistant", errorMessage e⟩] }
  | (.ok research, _) =>
    let sess1 := { sess with status := "solving", research_context := some research }
    match solve_problem topic research solveO with
    | (.error e, _) =>
      { sess1 with status := "error",
                   messages := sess1.messages ++ [⟨"assistant", errorMessage e⟩] }
    | (.ok solution, _) =>
      { sess1 with current_solution := some solution
                   waiting_for_approval := true
                   status := "waiting_for_approval"
                   messages := sess1.messages ++ [⟨"assistant", approvalMessage solution⟩] }

/-- The approval-phrase list of the `/human-input` endpoint. -/
def APPROVAL_WORDS : List String :=
  ["approve", "approved", "yes", "ok", "correct", "good", "looks good"]

/-- `any(word in feedback_lower for word in [...])` with
`feedback_lower = req.feedback.strip().lower()`. -/
def isApprovalFeedback (feedback : String) : Bool :=
  containsAnyWord APPROVAL_WORDS ((trim feedback.data).map lowerChar)

/-- `final_response` of the approval branch (f-string verbatim). -/
def approvedResponse (current_solution : String) : String :=
  "Solution Approved!\n            Final Solution:\n            " ++ current_solution

/-- The acknowledgement appended before the Revise stage runs. -/
def thankYouMessage : String :=
  "Thank you for the feedback! Let me improve the solution..."

/-- `final_response` of the revise branch (f-string verbatim). -/
def reviseResponse (feedback improved_solution : String) : String :=
  "Solution Improved Based on user Feedback\n            Your Feedback: " ++ feedback ++
    "\n\n            Improved Solution:\n            " ++ improved_solution ++
    "\n\n            ---\n            Please Review Again: \n            - Type \"approve\" if this solution looks good\n            - Or provide additional feedback for further refinements"

/-- The diagnostic message of `/human-input`'s `except` clause. -/
def feedbackErrorMessage (e : String) : String :=
  "I encountered an error processing your feedback: " ++ e

/-- Result of one `/human-input` call on a session: the session values
observable after each atomic segment of the handler (last = final), and
the HTTP outcome (status code on `HTTPException`, body message on
success). -/
structure HumanInputResult where
  states : List Session
  http : Except Nat String

/-- The `/human-input` endpoint body for a located session, from main.py:
reject with 400 unless `waiting_for_approval`; append the user feedback;
an approval phrase finalizes the session (status `completed`, solution
cleared, flag cleared, final message); any other feedback enters status
`improving` (observable while `improve_solution` is awaited), then stores
the improved solution and returns to `waiting_for_approval`; an exception
escaping the Revise stage is caught, recorded as status `error`, and
re-raised as HTTP 500. -/
def human_input (sess : Session) (feedback : String) (improveO : AgentOutcome) :
    HumanInputResult :=
  if !sess.waiting_for_approval then { states := [sess], http := .error 400 }
  else
    let sessU : Session := { sess with messages := sess.messages ++ [⟨"user", feedback⟩] }
    let current_solution := sess.current_solution.getD ""
    if isApprovalFeedback feedback then
      let sessF : Session := { sessU with
        status := "completed"
        waiting_for_approval := false
        current_solution := none
        messages := sessU.messages ++ [⟨"assistant", approvedResponse current_solution⟩] }
      { states := [sessF], http := .ok "Feedback processed successfully" }
    else
      let sessM : Session := { sessU with
        status := "improving"
        messages := sessU.messages ++ [⟨"assistant", thankYouMessage⟩] }
      match improve_solution current_solution feedback sess.current_topic improveO with
      | (.ok improved, _) =>
        let sessF : Session := { sessM with
          current_solution := some improved
          status := "waiting_for_approval"
          messages := sessM.messages ++ [⟨"assistant", reviseResponse feedback improved⟩] }
        { states := [sessM, sessF], http := .ok "Feedback processed successfully" }
      | (.error e, _) =>
        let sessE : Session := { sessM with
          status := "error"
          messages := sessM.messages ++ [⟨"assistant", feedbackErrorMessage e⟩] }
        { states := [sessM, sessE], http := .error 500 }

/-- The units of work main.py leaves in flight at an `await`, with the
captured locals their continuations actually use: the pipeline task
spawned by `/chat` that has not yet started running, the pipeline blocked
on the Research stage, the pipeline blocked on the Solve stage, and the
`/human-input` handler blocked on the Revise stage. -/
inductive PendingTask where
  | pipelineStart (topic : String)
  | pipelineResearch (topic : String)
  | pipelineSolve (topic : String)
  | improveAwait (feedback : String)

/-- One session together with the continuations currently in flight for
it. -/
abbrev Config := Session × List PendingTask

/-- The session states observable between `await` points, over every
sequence of API operations, as reachability on `Config`.

Continuation steps (`startPipeline`, `researchDone`/`researchFail`,
`solveDone`/`solveFail`, `improveDone`/`improveFail`) fire whenever their
task is in flight and carry NO precondition on the session — exactly as
in main.py, where the code after an `await` resumes unconditionally,
however concurrent requests may have mutated the session in the meantime
(e.g. lines 200-201 overwrite `current_solution` and `status` with no
check).  API-operation steps carry exactly the guards the handlers check:
none for `/chat`, the `waiting_for_approval` flag for `/human-input`.

The `seq` index selects the concurrency discipline. `Reach false` is the
full interleaved semantics.  `Reach true` additionally requires every API
operation to arrive only while no continuation is in flight, i.e.
operations do not overlap; the continuation steps are identical in both.
The flag/solution invariant below holds for `Reach true` and is broken by
an interleaved run (`approve_during_revise_race`). -/
inductive Reach : Bool → Config → Prop where
  | init (seq : Bool) (topic : String) :
      Reach seq (initSession topic, [.pipelineStart topic])
  | continueChat {seq : Bool} {s : Session} {ts : List PendingTask} (topic : String) :
      Reach seq (s, ts) → (seq = true → ts = []) →
      Reach seq ({ s with messages := s.messages ++ [⟨"user", topic⟩] },
        ts ++ [.pipelineStart topic])
  | startPipeline {seq : Bool} {s : Session} (a b : List PendingTask) (topic : String) :
      Reach seq (s, a ++ .pipelineStart topic :: b) →
      Reach seq ({ s with status := "researching" }, a ++ .pipelineResearch topic :: b)
  | researchDone {seq : Bool} {s : Session} (a b : List PendingTask)
      (topic research : String) :
      Reach seq (s, a ++ .pipelineResearch topic :: b) →
      Reach seq ({ s with status := "solving", research_context := some research },
        a ++ .pipelineSolve topic :: b)
  | researchFail {seq : Bool} {s : Session} (a b : List PendingTask) (topic e : String) :
      Reach seq (s, a ++ .pipelineResearch topic :: b) →
      Reach seq ({ s with status := "error"
                          messages := s.messages ++ [⟨"assistant", errorMessage e⟩] },
        a ++ b)
  | solveDone {seq : Bool} {s : Session} (a b : List PendingTask)
      (topic solution : String) :
      Reach seq (s, a ++ .pipelineSolve topic :: b) →
      Reach seq ({ s with current_solution := some solution
                          waiting_for_approval := true
                          status := "waiting_for_approval"
                          messages := s.messages ++ [⟨"assistant", approvalMessage solution⟩] },
        a ++ b)
  | solveFail {seq : Bool} {s : Session} (a b : List PendingTask) (topic e : String) :
      Reach seq (s, a ++ .pipelineSolve topic :: b) →
      Reach seq ({ s with status := "error"
                          messages := s.messages ++ [⟨"assistant", errorMessage e⟩] },
        a ++ b)
  | feedbackApprove {seq : Bool} {s : Session} {ts : List PendingTask} (feedback : String) :
      Reach seq (s, ts) → (seq = true → ts = []) →
      s.waiting_for_approval = true → isApprovalFeedback feedback = true →
      Reach seq ({ s with status := "completed"
                          waiting_for_approval := false
                          current_solution := none
                          messages := s.messages ++
                            [⟨"user", feedback⟩,
                             ⟨"assistant", approvedResponse (s.current_solution.getD "")⟩] },
        ts)
  | feedbackRevise {seq : Bool} {s : Session} {ts : List PendingTask} (feedback : String) :
      Reach seq (s, ts) → (seq = true → ts = []) →
      s.waiting_for_approval = true → isApprovalFeedback feedback = false →
      Reach seq ({ s with status := "improving"
                          messages := s.messages ++
                            [⟨"user", feedback⟩, ⟨"assistant", thankYouMessage⟩] },
        ts ++ [.improveAwait feedback])
  | improveDone {seq : Bool} {s : Session} (a b : List PendingTask)
      (feedback improved : String) :
      Reach seq (s, a ++ .improveAwait feedback :: b) →
      Reach seq ({ s with current_solution := some improved
                          status := "waiting_for_approval"
                          messages := s.messages ++
                            [⟨"assistant", reviseResponse feedback improved⟩] },
        a ++ b)
  | improveFail {seq : Bool} {s : Session} (a b : List PendingTask) (feedback e : String) :
      Reach seq (s, a ++ .improveAwait feedback :: b) →
      Reach seq ({ s with status := "error"
                          messages := s.messages ++ [⟨"assistant", feedbackErrorMessage e⟩] },
        a ++ b)

/-! ## Lemmas about the string helpers -/

theorem lowerChar_of_ws {c : Char} (h : isWS c = true) : lowerChar c = c := by
  simp only [isWS, Bool.or_eq_true, beq_iff_eq] at h
  rcases h with ((((h | h) | h) | h) | h) | h <;> subst h <;> decide

theorem all_ws_of_trim_eq_nil {l : List Char} (h : trim l = []) :
    ∀ c ∈ l, isWS c = true := by
  unfold trim at h
  rw [List.reverse_eq_nil_iff, List.dropWhile_eq_nil_iff] at h
  intro c hc
  rw [← l.takeWhile_append_dropWhile (p := isWS)] at hc
  rcases List.mem_append.mp hc with hc | hc
  · exact List.mem_takeWhile_imp hc
  · exact h c (List.mem_reverse.mpr hc)

theorem trim_eq_nil_of_all_ws {l : List Char} (h : ∀ c ∈ l, isWS c = true) :
    trim l = [] := by
  unfold trim
  rw [List.dropWhile_eq_nil_iff.mpr h]
  simp

theorem lowerStrip_eq_nil_of_trim_eq_nil {l : List Char} (h : trim l = []) :
    lowerStrip l = [] := by
  have hall := all_ws_of_trim_eq_nil h
  have hmap : l.map lowerChar = l := by
    have := List.map_congr_left (f := lowerChar) (g := id) (l := l)
      (fun c hc => lowerChar_of_ws (hall c hc))
    simpa using this
  unfold lowerStrip
  rw [hmap, h]

theorem isPrefixB_iff (n : List Char) : ∀ l, isPrefixB n l = true ↔ ∃ v, l = n ++ v := by
  induction n with
  | nil => intro l; simp [isPrefixB]
  | cons a as ih =>
    intro l
    cases l with
    | nil =>
      simp [isPrefixB]
    | cons b bs =>
      simp only [isPrefixB, Bool.and_eq_true, beq_iff_eq, ih bs]
      constructor
      · rintro ⟨rfl, v, rfl⟩; exact ⟨v, rfl⟩
      · rintro ⟨v, hv⟩
        injection hv with h1 h2
        exact ⟨h1.symm, v, h2⟩

theorem substrB_iff (n : List Char) : ∀ l, substrB n l = true ↔ ∃ u v, l = u ++ (n ++ v) := by
  intro l
  induction l with
  | nil =>
    simp only [substrB, isPrefixB_iff]
    constructor
    · rintro ⟨v, hv⟩; exact ⟨[], v, hv⟩
    · rintro ⟨u, v, hv⟩
      rcases List.append_eq_nil.mp hv.symm with ⟨rfl, h2⟩
      exact ⟨v, h2.symm⟩
  | cons c t ih =>
    simp only [substrB, Bool.or_eq_true, isPrefixB_iff, ih]
    constructor
    · rintro (⟨v, hv⟩ | ⟨u, v, hv⟩)
      · exact ⟨[], v, by simpa using hv⟩
      · exact ⟨c :: u, v, by simp [hv]⟩
    · rintro ⟨u, v, hv⟩
      cases u with
      | nil => exact Or.inl ⟨v, by simpa using hv⟩
      | cons u0 us =>
        injection hv with h1 h2
        exact Or.inr ⟨us, v, h2⟩

theorem substrB_of_infix {n u v l : List Char} (h : l = u ++ (n ++ v)) :
    substrB n l = true :=
  (substrB_iff n l).mpr ⟨u, v, h⟩

theorem substrB_reverse_of_substrB {n l : List Char} (h : substrB n l = true) :
    substrB n.reverse l.reverse = true := by
  obtain ⟨u, v, rfl⟩ := (substrB_iff n _).mp h
  exact substrB_of_infix (u := v.reverse) (v := u.reverse) (by simp)

theorem substrB_dropWhile_ws {n l : List Char} (hne : n ≠ [])
    (hh : isWS (n.headD 'a') = false) (h : substrB n l = true) :
    substrB n (l.dropWhile isWS) = true := by
  obtain ⟨u, v, rfl⟩ := (substrB_iff n _).mp h
  rw [List.dropWhile_append]
  by_cases he : (u.dropWhile isWS).isEmpty
  · rw [if_pos he]
    cases n with
    | nil => exact absurd rfl hne
    | cons n0 ns =>
      simp only [List.headD_cons] at hh
      rw [List.cons_append, List.dropWhile_cons, hh]
      exact substrB_of_infix (u := []) (v := v) (by simp)
  · rw [if_neg he]
    exact substrB_of_infix (u := u.dropWhile isWS) (v := v) rfl

theorem substrB_trim {n l : List Char} (hne : n ≠ [])
    (hh : isWS (n.headD 'a') = false) (hr : isWS (n.reverse.headD 'a') = false)
    (h : substrB n l = true) : substrB n (trim l) = true := by
  have h1 : substrB n (l.dropWhile isWS) = true := substrB_dropWhile_ws hne hh h
  have h2 : substrB n.reverse (l.dropWhile isWS).reverse = true :=
    substrB_reverse_of_substrB h1
  have hner : n.reverse ≠ [] := by
    intro hc; exact hne (by simpa using congrArg List.reverse hc)
  have h3 : substrB n.reverse ((l.dropWhile isWS).reverse.dropWhile isWS) = true :=
    substrB_dropWhile_ws hner hr h2
  have h4 := substrB_reverse_of_substrB h3
  rw [List.reverse_reverse] at h4
  exact h4

/-! ## The session-state invariant -/

theorem improveAwait_mem_swap {fb : String} {y x : PendingTask} {a b : List PendingTask}
    (hne : PendingTask.improveAwait fb ≠ y)
    (hm : PendingTask.improveAwait fb ∈ a ++ y :: b) :
    PendingTask.improveAwait fb ∈ a ++ x :: b := by
  rcases List.mem_append.mp hm with h | h
  · exact List.mem_append.mpr (Or.inl h)
  · rcases List.mem_cons.mp h with h | h
    · exact absurd h hne
    · exact List.mem_append.mpr (Or.inr (List.mem_cons_of_mem _ h))

theorem mem_append_middle {t x : PendingTask} {a b : List PendingTask}
    (hm : t ∈ a ++ b) : t ∈ a ++ x :: b := by
  rcases List.mem_append.mp hm with h | h
  · exact List.mem_append.mpr (Or.inl h)
  · exact List.mem_append.mpr (Or.inr (List.mem_cons_of_mem _ h))

theorem mem_middle (t : PendingTask) (a b : List PendingTask) : t ∈ a ++ t :: b :=
  List.mem_append.mpr (Or.inr (List.mem_cons_self _ _))

/-- The joint inductive invariant for non-overlapping operation: the
awaiting flag tracks the presence of a current solution, and whenever a
Revise continuation is in flight the flag is still set (the handler set
`improving` without clearing it). -/
theorem seq_reach_invariants {seq : Bool} {c : Config} (h : Reach seq c) :
    seq = true →
      ((c.1.waiting_for_approval = true ↔ c.1.current_solution ≠ none) ∧
        (∀ fb, PendingTask.improveAwait fb ∈ c.2 → c.1.waiting_for_approval = true)) := by
  induction h with
  | init topic =>
    intro _
    refine ⟨by simp [initSession], ?_⟩
    intro fb hm
    rcases List.mem_singleton.mp hm with h'
    exact PendingTask.noConfusion h'
  | continueChat topic _ hg ih =>
    intro hseq
    obtain ⟨ih1, _⟩ := ih hseq
    refine ⟨ih1, ?_⟩
    intro fb hm
    rw [hg hseq] at hm
    rcases List.mem_singleton.mp hm with h'
    exact PendingTask.noConfusion h'
  | startPipeline a b topic _ ih =>
    intro hseq
    obtain ⟨ih1, ih2⟩ := ih hseq
    exact ⟨ih1, fun fb hm =>
      ih2 fb (improveAwait_mem_swap (fun h' => PendingTask.noConfusion h') hm)⟩
  | researchDone a b topic research _ ih =>
    intro hseq
    obtain ⟨ih1, ih2⟩ := ih hseq
    exact ⟨ih1, fun fb hm =>
      ih2 fb (improveAwait_mem_swap (fun h' => PendingTask.noConfusion h') hm)⟩
  | researchFail a b topic e _ ih =>
    intro hseq
    obtain ⟨ih1, ih2⟩ := ih hseq
    exact ⟨ih1, fun fb hm => ih2 fb (mem_append_middle hm)⟩
  | solveDone a b topic solution _ ih =>
    intro _
    exact ⟨by simp, fun fb _ => rfl⟩
  | solveFail a b topic e _ ih =>
    intro hseq
    obtain ⟨ih1, ih2⟩ := ih hseq
    exact ⟨ih1, fun fb hm => ih2 fb (mem_append_middle hm)⟩
  | feedbackApprove feedback _ hg _ _ ih =>
    intro hseq
    refine ⟨by simp, ?_⟩
    intro fb hm
    rw [hg hseq] at hm
    exact absurd hm (List.not_mem_nil _)
  | feedbackRevise feedback _ hg hw _ ih =>
    intro hseq
    obtain ⟨ih1, _⟩ := ih hseq
    exact ⟨ih1, fun fb _ => hw⟩
  | improveDone a b feedback improved _ ih =>
    intro hseq
    obtain ⟨ih1, ih2⟩ := ih hseq
    have hflag := ih2 feedback (mem_middle _ a b)
    refine ⟨⟨fun _ => fun h' => Option.noConfusion h', fun _ => hflag⟩, fun fb _ => hflag⟩
  | improveFail a b feedback e _ ih =>
    intro hseq
    obtain ⟨ih1, ih2⟩ := ih hseq
    exact ⟨ih1, fun fb hm => ih2 fb (mem_append_middle hm)⟩

/-! ## Demo sessions used to instantiate the theorems -/

/-- A session frozen mid-Revise: the `/human-input` handler has entered
status `improving` and is awaiting `improve_solution`. -/
def demoImproving : Session :=
  { status := "improving"
    messages := [⟨"user", "solve x+1"⟩, ⟨"assistant", approvalMessage "S"⟩,
                 ⟨"user", "please show the algebraic steps"⟩, ⟨"assistant", thankYouMessage⟩]
    waiting_for_approval := true
    current_solution := some "S"
    current_topic := "solve x+1"
    research_context := some "R" }

/-- `demoImproving` is reached by a perfectly sequential run: chat, the
pipeline, then one non-approval feedback whose Revise call is in flight. -/
theorem demoImproving_reach :
    Reach true (demoImproving, [.improveAwait "please show the algebraic steps"]) := by
  have h0 := Reach.init true "solve x+1"
  have h1 := Reach.startPipeline [] [] "solve x+1" h0
  have h2 := Reach.researchDone [] [] "solve x+1" "R" h1
  have h3 := Reach.solveDone [] [] "solve x+1" "S" h2
  have h4 := Reach.feedbackRevise "please show the algebraic steps" h3 (fun _ => rfl) rfl
    (by decide)
  exact h4

/-- The session left behind by the overlapping-feedback race: approval
arrives while the Revise stage of an earlier feedback is awaited; the
resumed continuation (main.py lines 200-201) then overwrites
`current_solution` and `status` unconditionally, leaving
`waiting_for_approval = false` next to a non-null solution. -/
def raceSession : Session :=
  { status := "waiting_for_approval"
    messages := [⟨"user", "solve x+1"⟩, ⟨"assistant", approvalMessage "S"⟩,
                 ⟨"user", "please show the algebraic steps"⟩, ⟨"assistant", thankYouMessage⟩,
                 ⟨"user", "approve"⟩, ⟨"assistant", approvedResponse "S"⟩,
                 ⟨"assistant", reviseResponse "please show the algebraic steps" "S2"⟩]
    waiting_for_approval := false
    current_solution := some "S2"
    current_topic := "solve x+1"
    research_context := some "R" }

theorem race_reach : Reach false (raceSession, []) := by
  have h0 := Reach.init false "solve x+1"
  have h1 := Reach.startPipeline [] [] "solve x+1" h0
  have h2 := Reach.researchDone [] [] "solve x+1" "R" h1
  have h3 := Reach.solveDone [] [] "solve x+1" "S" h2
  have h4 := Reach.feedbackRevise "please show the algebraic steps" h3 (fun _ => rfl) rfl
    (by decide)
  have h5 := Reach.feedbackApprove "approve" h4 (fun h' => Bool.noConfusion h') rfl (by decide)
  have h6 := Reach.improveDone [] [] "please show the algebraic steps" "S2" h5
  exact h6

/-- C1 (counterexample): two reachable states refute the claim.  First, a
sequential run reaches status `improving` with `waiting_for_approval`
still set — the feedback handler's transition to `improving` (and
likewise to `error`) never clears the flag, so "every transition to a
status other than waiting_for_approval clears the flag" is false.
Second, under the full interleaved semantics an approval arriving while a
Revise call is awaited leaves `waiting_for_approval = false` with a
non-null `current_solution` once the revise continuation resumes, so even
the flag-iff-solution half fails over unrestricted sequences of API
operations. -/
theorem waiting_flag_claim_counterexample :
    (Reach true (demoImproving, [.improveAwait "please show the algebraic steps"]) ∧
        demoImproving.status = "improving" ∧ demoImproving.waiting_for_approval = true) ∧
      (Reach false (raceSession, []) ∧ raceSession.waiting_for_approval = false ∧
        raceSession.current_solution ≠ none) :=
  ⟨⟨demoImproving_reach, rfl, rfl⟩,
   ⟨race_reach, rfl, fun h' => Option.noConfusion h'⟩⟩

/-- C1 (amended): over every sequence of NON-OVERLAPPING API operations —
no chat or feedback request arriving while a previously spawned
continuation is still awaited — the `waiting_for_approval` flag is set
exactly when the session holds a non-null `current_solution`, at every
state observable between `await` points.  The approval transition to
`completed` clears flag and solution together, while the transitions to
`improving` and to `error` inside feedback processing leave the flag set;
under overlapping operations the equivalence genuinely fails
(`waiting_flag_claim_counterexample`). -/
theorem waiting_flag_iff_solution {c : Config} (h : Reach true c) :
    c.1.waiting_for_approval = true ↔ c.1.current_solution ≠ none :=
  (seq_reach_invariants h rfl).1

/-- Witness for `waiting_flag_iff_solution` at the sequentially reachable
mid-Revise state. -/
theorem waiting_flag_iff_solution_witness :
    demoImproving.waiting_for_approval = true ↔ demoImproving.current_solution ≠ none :=
  waiting_flag_iff_solution demoImproving_reach

/-- C8: `format_math_output "3/4 + x^2"` contains the fraction markup
`\frac{3}{4}` and the braced exponent `x^{2}` — the fraction rule runs
before the exponent rule, so neither clobbers the other. -/
theorem format_output_fraction_and_exponent :
    substrB "\\frac\x7b3\x7d\x7b4\x7d".data (MathGuardrails.format_math_output "3/4 + x^2").data = true ∧
      substrB "x^\x7b2\x7d".data (MathGuardrails.format_math_output "3/4 + x^2").data = true := by
  decide

/-- C2 (counterexample): an input that contains the math keyword `solve`
(and `equation`) is nevertheless rejected, because it also contains the
non-math indicator `weather` and the rejection check runs first. -/
theorem keyword_input_rejected :
    containsAnyWord MathGuardrails.MATH_KEYWORDS
        (lowerStrip "solve the weather equation".data) = true ∧
      (MathGuardrails.validate_math_input "solve the weather equation").1 = false := by
  decide

/-- C2 (amended): for every input matching at least one math keyword or
math regex pattern and containing no non-math indicator phrase,
`validate_math_input` returns valid with the acceptance message. -/
theorem validate_accepts_math (t : String)
    (hind : containsAnyWord MathGuardrails.NON_MATH_INDICATORS (lowerStrip t.data) = false)
    (h : (containsAnyWord MathGuardrails.MATH_KEYWORDS (lowerStrip t.data) ||
        MathGuardrails.hasMathPattern (lowerStrip t.data)) = true) :
    MathGuardrails.validate_math_input t = (true, MathGuardrails.MSG_VALID) := by
  by_cases hemp : (t.data.isEmpty || (trim t.data).isEmpty) = true
  · exfalso
    have hnil : lowerStrip t.data = [] := by
      rcases Bool.or_eq_true _ _ |>.mp hemp with he | he
      · rw [List.isEmpty_iff.mp he]; rfl
      · exact lowerStrip_eq_nil_of_trim_eq_nil (List.isEmpty_iff.mp he)
    rw [hnil] at h
    exact absurd h (by decide)
  · unfold MathGuardrails.validate_math_input
    rw [if_neg (by simpa using hemp)]
    simp only [hind, if_neg Bool.false_ne_true, h]
    simp

/-- Witness for `validate_accepts_math` on a keyword-plus-pattern input. -/
theorem validate_accepts_math_witness :
    MathGuardrails.validate_math_input "Solve x^2 = 4" = (true, MathGuardrails.MSG_VALID) :=
  validate_accepts_math "Solve x^2 = 4" (by decide) (by decide)

/-- C3: every input that is empty or all-whitespace, or that contains a
non-math indicator phrase as a case-insensitive substring, is rejected by
`validate_math_input`, regardless of any math keyword or pattern also
present: the rejection checks run before the acceptance checks. -/
theorem validate_rejects_nonmath (t : String)
    (h : t.data.all isWS = true ∨
      containsAnyWord MathGuardrails.NON_MATH_INDICATORS (t.data.map lowerChar) = true) :
    (MathGuardrails.validate_math_input t).1 = false := by
  by_cases hemp : (t.data.isEmpty || (trim t.data).isEmpty) = true
  · unfold MathGuardrails.validate_math_input
    rw [if_pos hemp]
  · rcases h with hws | hind
    · exact absurd (Bool.or_eq_true _ _ |>.mpr
        (Or.inr (List.isEmpty_iff.mpr
          (trim_eq_nil_of_all_ws (by simpa [List.all_eq_true] using hws))))) hemp
    · have hside : ∀ w ∈ MathGuardrails.NON_MATH_INDICATORS,
          w.data ≠ [] ∧ isWS (w.data.headD 'a') = false ∧
            isWS (w.data.reverse.headD 'a') = false := by decide
      obtain ⟨w, hw, hsub⟩ := List.any_eq_true.mp hind
      obtain ⟨hne, hh, hr⟩ := hside w hw
      have htrim : substrB w.data (lowerStrip t.data) = true :=
        substrB_trim hne hh hr hsub
      have hind' : containsAnyWord MathGuardrails.NON_MATH_INDICATORS
          (lowerStrip t.data) = true :=
        List.any_eq_true.mpr ⟨w, hw, htrim⟩
      unfold MathGuardrails.validate_math_input
      rw [if_neg (by simpa using hemp)]
      simp only [hind']
      simp

/-- Witness for `validate_rejects_nonmath`: an input containing both a
math pattern and a non-math indicator is rejected. -/
theorem validate_rejects_nonmath_witness :
    (MathGuardrails.validate_math_input "Tell me a JOKE about x^2").1 = false :=
  validate_rejects_nonmath "Tell me a JOKE about x^2" (Or.inr (by decide))

/-- C6: `research_topic` and `solve_problem` guard their topic through the
validator and return its rejection message without engaging any agent or
model when the topic is invalid, whereas `improve_solution` performs no
validation and always engages the agent machinery. -/
theorem stage_validation_guard :
    (∀ (topic : String) (o : AgentOutcome),
        (MathGuardrails.validate_math_input topic).1 = false →
          research_topic topic o =
            (.ok (MathGuardrails.validate_math_input topic).2, false)) ∧
      (∀ (topic ctx : String) (o : AgentOutcome),
        (MathGuardrails.validate_math_input topic).1 = false →
          solve_problem topic ctx o =
            (.ok (MathGuardrails.validate_math_input topic).2, false)) ∧
      (∀ (orig fb topic : String) (o : AgentOutcome),
        (improve_solution orig fb topic o).2 = true) := by
  refine ⟨?_, ?_, ?_⟩
  · intro topic o h
    simp [research_topic, h]
  · intro topic ctx o h
    simp [solve_problem, h]
  · intro orig fb topic o
    cases o <;> rfl

/-- Witness for `stage_validation_guard` on a rejected topic. -/
theorem stage_validation_guard_witness :
    research_topic "tell me a joke" (.text "ctx") = (.ok MathGuardrails.MSG_NON_MATH, false) ∧
      solve_problem "tell me a joke" "ctx" (.text "sol") = (.ok MathGuardrails.MSG_NON_MATH, false) ∧
      (improve_solution "orig" "fb" "tell me a joke" (.text "imp")).2 = true := by
  have hv : MathGuardrails.validate_math_input "tell me a joke" =
      (false, MathGuardrails.MSG_NON_MATH) := by decide
  refine ⟨?_, ?_, stage_validation_guard.2.2 "orig" "fb" "tell me a joke" (.text "imp")⟩
  · have h := stage_validation_guard.1 "tell me a joke" (.text "ctx") (by rw [hv])
    rwa [hv] at h
  · have h := stage_validation_guard.2.1 "tell me a joke" "ctx" (.text "sol") (by rw [hv])
    rwa [hv] at h

/-- C9: a `POST /chat` carrying a session id that is absent from the
session store does not fail — it creates a brand-new session under a
freshly generated identifier, ignoring the supplied id, and replies with
the fresh id and status `processing`. -/
theorem chat_unknown_session_creates_new (store : SessionStore)
    (topic sid freshId : String) (h : findSession store sid = none) :
    chat store topic (some sid) freshId =
      (store ++ [(freshId, initSession topic)],
       { session_id := freshId, status := "processing",
         messages := [⟨"user", topic⟩] }) := by
  simp [chat, h, chatNew, initSession]

/-- Witness for `chat_unknown_session_creates_new` on a store without the
requested session. -/
theorem chat_unknown_session_creates_new_witness :
    chat [("keep", initSession "2+2")] "solve x" (some "missing") "fresh1" =
      ([("keep", initSession "2+2"), ("fresh1", initSession "solve x")],
       { session_id := "fresh1", status := "processing",
         messages := [⟨"user", "solve x"⟩] }) :=
  chat_unknown_session_creates_new [("keep", initSession "2+2")] "solve x" "missing" "fresh1" rfl

/-- C10: a topic rejected by the validator still flows through the
pipeline normally — both stages return the rejection message as an
ordinary string, so the session ends in `waiting_for_approval` (never
`error`) with the rejection message as its current solution. -/
theorem invalid_topic_reaches_approval (sess : Session) (topic : String)
    (o1 o2 : AgentOutcome) (h : (MathGuardrails.validate_math_input topic).1 = false) :
    process_math_question sess topic o1 o2 =
      { sess with
          status := "waiting_for_approval"
          waiting_for_approval := true
          research_context := some (MathGuardrails.validate_math_input topic).2
          current_solution := some (MathGuardrails.validate_math_input topic).2
          messages := sess.messages ++
            [⟨"assistant", approvalMessage (MathGuardrails.validate_math_input topic).2⟩] } := by
  simp [process_math_question, research_topic, solve_problem, h]

/-- Witness for `invalid_topic_reaches_approval` on a rejected topic. -/
theorem invalid_topic_reaches_approval_witness :
    process_math_question (initSession "tell me a joke") "tell me a joke"
        (.text "r") (.text "s") =
      { initSession "tell me a joke" with
          status := "waiting_for_approval"
          waiting_for_approval := true
          research_context := some (MathGuardrails.validate_math_input "tell me a joke").2
          current_solution := some (MathGuardrails.validate_math_input "tell me a joke").2
          messages := (initSession "tell me a joke").messages ++
            [⟨"assistant",
              approvalMessage (MathGuardrails.validate_math_input "tell me a joke").2⟩] } :=
  invalid_topic_reaches_approval (initSession "tell me a joke") "tell me a joke"
    (.text "r") (.text "s") (by decide)

/-- A session sitting in `waiting_for_approval` with a presented solution,
used to instantiate the feedback theorems. -/
def demoWaiting : Session :=
  { status := "waiting_for_approval"
    messages := [⟨"user", "solve x+1"⟩, ⟨"assistant", approvalMessage "S0"⟩]
    waiting_for_approval := true
    current_solution := some "S0"
    current_topic := "solve x+1"
    research_context := some "R" }

/-- C4: while a session awaits approval, feedback whose stripped,
lowercased text contains an approval phrase finalizes the session: status
`completed`, `current_solution` cleared to null, the awaiting flag
cleared, and the final assistant message appended after the user
feedback. -/
theorem approval_feedback_completes (sess : Session) (fb : String) (o : AgentOutcome)
    (hw : sess.waiting_for_approval = true) (ha : isApprovalFeedback fb = true) :
    human_input sess fb o =
      { states := [{ sess with
          status := "completed"
          waiting_for_approval := false
          current_solution := none
          messages := sess.messages ++
            [⟨"user", fb⟩,
             ⟨"assistant", approvedResponse (sess.current_solution.getD "")⟩] }],
        http := .ok "Feedback processed successfully" } := by
  simp [human_input, hw, ha]

/-- Witness for `approval_feedback_completes` with feedback `"Approve"`. -/
theorem approval_feedback_completes_witness :
    human_input demoWaiting "Approve" (.text "unused") =
      { states := [{ demoWaiting with
          status := "completed"
          waiting_for_approval := false
          current_solution := none
          messages := demoWaiting.messages ++
            [⟨"user", "Approve"⟩,
             ⟨"assistant", approvedResponse (demoWaiting.current_solution.getD "")⟩] }],
        http := .ok "Feedback processed successfully" } :=
  approval_feedback_completes demoWaiting "Approve" (.text "unused") rfl (by decide)

/-- C5: while a session awaits approval, feedback matching no approval
phrase runs the Revise stage: the session is first observable in status
`improving`, then returns to `waiting_for_approval` with the improved
solution replacing `current_solution` and a fresh review prompt appended —
all earlier messages (the original solution included) stay in the
history. -/
theorem revise_feedback_roundtrip (sess : Session) (fb improved : String) (o : AgentOutcome)
    (hw : sess.waiting_for_approval = true) (hn : isApprovalFeedback fb = false)
    (him : (improve_solution (sess.current_solution.getD "") fb sess.current_topic o).1 =
      .ok improved) :
    human_input sess fb o =
      { states := [
          { sess with
            status := "improving"
            messages := sess.messages ++ [⟨"user", fb⟩, ⟨"assistant", thankYouMessage⟩] },
          { sess with
            status := "waiting_for_approval"
            current_solution := some improved
            messages := sess.messages ++
              [⟨"user", fb⟩, ⟨"assistant", thankYouMessage⟩,
               ⟨"assistant", reviseResponse fb improved⟩] }],
        http := .ok "Feedback processed successfully" } := by
  cases o with
  | text s =>
    simp only [improve_solution] at him
    injection him with him
    subst him
    simp [human_input, hw, hn, improve_solution]
  | fail e =>
    simp only [improve_solution] at him
    injection him with him
    subst him
    simp [human_input, hw, hn, improve_solution]
  | raised e =>
    simp only [improve_solution] at him
    exact absurd him (by simp)

/-- Witness for `revise_feedback_roundtrip` with non-approval feedback
and a successful Revise call. -/
theorem revise_feedback_roundtrip_witness :
    human_input demoWaiting "please show the algebraic steps" (.text "better") =
      { states := [
          { demoWaiting with
            status := "improving"
            messages := demoWaiting.messages ++
              [⟨"user", "please show the algebraic steps"⟩, ⟨"assistant", thankYouMessage⟩] },
          { demoWaiting with
            status := "waiting_for_approval"
            current_solution := some (MathGuardrails.format_math_output "better")
            messages := demoWaiting.messages ++
              [⟨"user", "please show the algebraic steps"⟩, ⟨"assistant", thankYouMessage⟩,
               ⟨"assistant", reviseResponse "please show the algebraic steps"
                 (MathGuardrails.format_math_output "better")⟩] }],
        http := .ok "Feedback processed successfully" } :=
  revise_feedback_roundtrip demoWaiting "please show the algebraic steps"
    (MathGuardrails.format_math_output "better") (.text "better") rfl (by decide) rfl

theorem extractTexts_length :
    ∀ (l : List PineconeMatch) (ts : List String),
      extractTexts l = some ts → ts.length = l.length := by
  intro l
  induction l with
  | nil =>
    intro ts h
    simp only [extractTexts, Option.some.injEq] at h
    subst h
    rfl
  | cons m rest ih =>
    intro ts h
    simp only [extractTexts] at h
    cases hm : lookupMeta m.metadata "text" with
    | none => rw [hm] at h; simp at h
    | some t =>
      rw [hm] at h
      cases hr : extractTexts rest with
      | none => rw [hr] at h; simp at h
      | some ts' =>
        rw [hr] at h
        simp only [Option.some.injEq] at h
        subst h
        simp [ih ts' hr]

/-- C7: the knowledge retriever returns at most 3 snippets, extracted from
the matches' metadata, and every failure — of the embedding call, of the
index query, or of the metadata extraction — yields the empty list; no
exception reaches the caller (the function is total). -/
theorem retrieve_top3_or_empty {α : Type} (w : KBWorld α) (q : String) :
    (retrieve_data_from_db w q).length ≤ 3 ∧
      (∀ e, w.embed q = .error e → retrieve_data_from_db w q = []) ∧
      (∀ v e, w.embed q = .ok v → w.query v "engg-math-1" = .error e →
        retrieve_data_from_db w q = []) ∧
      (∀ v ms, w.embed q = .ok v → w.query v "engg-math-1" = .ok ms →
        extractTexts (ms.take 3) = none → retrieve_data_from_db w q = []) := by
  refine ⟨?_, ?_, ?_, ?_⟩
  · cases he : w.embed q with
    | error e => simp [retrieve_data_from_db, he]
    | ok v =>
      cases hq : w.query v "engg-math-1" with
      | error e => simp [retrieve_data_from_db, index_query, he, hq, Except.map]
      | ok ms =>
        cases ht : extractTexts (ms.take 3) with
        | none => simp [retrieve_data_from_db, index_query, he, hq, ht, Except.map]
        | some ts =>
          simp only [retrieve_data_from_db, index_query, he, hq, ht, Except.map]
          rw [extractTexts_length _ _ ht, List.length_take]
          exact min_le_left _ _
  · intro e he
    simp [retrieve_data_from_db, he]
  · intro v e hv hq
    simp [retrieve_data_from_db, hv, index_query, hq, Except.map]
  · intro v ms hv hq ht
    simp [retrieve_data_from_db, hv, index_query, hq, Except.map, ht]

/-- A toy world where every remote call succeeds. -/
def kbDemoOk : KBWorld Nat :=
  { embed := fun _ => .ok 0
    query := fun _ _ => .ok [⟨[("text", "laplace transform notes")]⟩] }

/-- A toy world where the embedding service is down. -/
def kbDemoDown : KBWorld Nat :=
  { embed := fun _ => .error "connection refused"
    query := fun _ _ => .ok [] }

/-- Witness for `retrieve_top3_or_empty`: bounded on a healthy world,
empty on a failing one. -/
theorem retrieve_top3_or_empty_witness :
    (retrieve_data_from_db kbDemoOk "laplace").length ≤ 3 ∧
      retrieve_data_from_db kbDemoDown "laplace" = [] :=
  ⟨(retrieve_top3_or_empty kbDemoOk "laplace").1,
   (retrieve_top3_or_empty kbDemoDown "laplace").2.1 "connection refused" rfl⟩
